import Mathlib

/-!
Shallow embedding of the money-tracker application core
(src/app/page.tsx, src/app/add/page.tsx, src/app/analytics/page.tsx).

Numbers are modelled as `ℚ` (the app uses plain JS numbers for currency
amounts; the spec declares precision beyond simple numerics a non-goal).
Timestamps are modelled as `ℤ` milliseconds.  Calendar dates (the `date`
string field of a transaction, always of the form "YYYY-MM-DD") are
modelled by their year/month/day fields; `new Date(t.date).getFullYear()`
and `.getMonth() + 1` are the `year` and `month` projections.
-/

set_option maxRecDepth 4000
set_option maxHeartbeats 1000000

/-- Truthiness coercion `v || 0` that JS applies to numbers: `0` stays `0`,
any other number is returned unchanged (NaN is not representable in `ℚ`;
validation in the app rejects it before these code paths). -/
def jsOrZero (v : ℚ) : ℚ := if v = 0 then 0 else v

lemma jsOrZero_eq (v : ℚ) : jsOrZero v = v := by
  unfold jsOrZero; split <;> simp_all

/-- The `type` column of a transaction: `'income' | 'expense'`. -/
inductive TxType : Type
  | income : TxType
  | expense : TxType
deriving DecidableEq, Repr

/-- A calendar date as stored in the `date` column ("YYYY-MM-DD"). -/
structure DateYMD : Type where
  year : Nat
  month : Nat
  day : Nat
deriving DecidableEq, Repr

/-- The `Transaction` row type of src/app/page.tsx. -/
structure Transaction : Type where
  id : String
  type : TxType
  amount : ℚ
  category : String
  memo : Option String
  date : DateYMD
deriving DecidableEq, Repr

/-- The `Goal` row type of src/app/page.tsx: target_amount, current_amount,
optional target_date (kept abstract as the stored string). -/
structure Goal : Type where
  id : String
  target_amount : ℚ
  current_amount : ℚ
  target_date : Option String
deriving DecidableEq, Repr

/-- The remote data store: the `transactions` table and the `goals` table.
`limit(1).single()` on `goals` reads the first row. -/
structure Store : Type where
  transactions : List Transaction
  goals : List Goal
deriving DecidableEq, Repr

/-- The ceiling `Math.ceil` applied to an exact rational quotient,
as `-⌊-q⌋` (which is definitionally Mathlib's `⌈q⌉` on `ℚ`). -/
def jsCeil (q : ℚ) : ℤ := -Rat.floor (-q)

lemma jsCeil_eq (q : ℚ) : jsCeil q = ⌈q⌉ := rfl

/-- The row returned by the goal fetch of src/app/add/page.tsx lines
61-65: `.from('goals').select('current_amount').limit(1).single()` — only
the `current_amount` column is present in the returned record. -/
structure GoalFetch : Type where
  current_amount : ℚ
deriving DecidableEq, Repr

/-- Reading `goalData.id` on that record (line 71): the column was not
selected, so the property is `undefined`, modelled as `none`. -/
def goalFetchId (_gd : GoalFetch) : Option String := none

/-- `handleSubmit` of src/app/add/page.tsx.  Arguments mirror the form
state: the parsed amount (`parseFloat`; `none` models NaN), the selected
category, memo, date; `newId` is the id the store assigns to the inserted
row.  Returns `none` when validation rejects the submission, otherwise the
updated store: the transaction is inserted, and for an income the code
fetches only `current_amount` of the first goal row and then issues
`.update({current_amount: (goalData.current_amount || 0) + amountNum})
.eq('id', goalData.id)` (lines 67-72).  Since `goalData.id` is undefined,
the id filter — `some g2.id = goalFetchId gd`, a present id compared
against the absent one — matches no row, so no goal row is ever updated
(the unchecked update either errors on a non-text id column or affects
zero rows). -/
def handleSubmitAdd (store : Store) (ty : TxType) (amountNum : Option ℚ)
    (category : String) (memo : Option String) (date : DateYMD)
    (newId : String) : Option Store :=
  if category = "" then none
  else
    match amountNum with
    | none => none
    | some a =>
      if a ≤ 0 then none
      else
        let tx : Transaction :=
          { id := newId, type := ty, amount := a, category := category,
            memo := memo, date := date }
        let store1 : Store :=
          { store with transactions := store.transactions ++ [tx] }
        match ty with
        | TxType.income =>
          match (store1.goals.map (fun g =>
              GoalFetch.mk g.current_amount)).head? with
          | some gd =>
            some { store1 with goals := store1.goals.map (fun g2 =>
              if some g2.id = goalFetchId gd then
                { g2 with current_amount := jsOrZero gd.current_amount + a }
              else g2) }
          | none => some store1
        | TxType.expense => some store1

/-- `today.setHours(0, 0, 0, 0)` on a timestamp: subtract the elapsed
milliseconds of the local day, where `tz` is the offset of local time
ahead of UTC in milliseconds. -/
def stripTimeOfDay (tz ts : Int) : Int := ts - (ts + tz).emod 86400000

/-- Lines 145-150 of src/app/page.tsx: `daysRemaining` is
`Math.ceil((targetDate.getTime() - today.getTime()) / 86400000)` when a
target date exists (`targetTs` is its timestamp), and `isOverdue` is
`daysRemaining !== null && daysRemaining < 0`. -/
def computeDeadlineStatus (targetTs : Option Int) (nowTs tz : Int) :
    Option Int × Bool :=
  let today := stripTimeOfDay tz nowTs
  let daysRemaining : Option Int :=
    match targetTs with
    | some t => some (jsCeil (((t - today : Int) : ℚ) / 86400000))
    | none => none
  let isOverdue : Bool :=
    match daysRemaining with
    | some d => decide (d < 0)
    | none => false
  (daysRemaining, isOverdue)

/-- The expression `(goal?.target_amount || 0)` of line 225. -/
def jsOptTargetAmount (goal : Option Goal) : ℚ :=
  match goal with
  | some g => jsOrZero g.target_amount
  | none => 0

/-- Lines 223-227 of src/app/page.tsx: the required daily pace is rendered
only when `!isOverdue && daysRemaining > 0`, as
`Math.ceil(((goal?.target_amount || 0) - currentAmount) / daysRemaining)`;
otherwise nothing is computed. -/
def requiredPaceDisplay (goal : Option Goal) (currentAmount : ℚ)
    (daysRemaining : Option Int) (isOverdue : Bool) : Option Int :=
  match daysRemaining with
  | some d =>
    if isOverdue = false ∧ 0 < d then
      some (jsCeil ((jsOptTargetAmount goal - currentAmount) / (d : ℚ)))
    else none
  | none => none

/-- Line 142 of src/app/page.tsx:
`goal ? (currentAmount / goal.target_amount) * 100 : 0`. -/
def computeProgress (goal : Option Goal) (currentAmount : ℚ) : ℚ :=
  match goal with
  | some g => currentAmount / g.target_amount * 100
  | none => 0

/-- Line 233 of src/app/page.tsx: the visual bar width is
`Math.min(progress, 100)` percent. -/
def progressBarWidth (p : ℚ) : ℚ := min p 100

/-- `handleSubmit` of the settings page (second component of
src/app/page.tsx, lines 401-457).  `goalState` is the component's fetched
goal, `amountNum` the parsed target amount (`none` models NaN), `dateStr`
the date input value ("" when empty) and `dateValid` whether
`new Date(dateStr)` is a valid date.  On success only `target_amount` and
`target_date` of the matching goal row are updated. -/
def handleSubmitSettings (store : Store) (goalState : Option Goal)
    (amountNum : Option ℚ) (dateStr : String) (dateValid : Bool) :
    Option Store :=
  match amountNum with
  | none => none
  | some a =>
    if a ≤ 0 then none
    else if dateStr ≠ "" ∧ dateValid = false then none
    else
      match goalState with
      | none => none
      | some g =>
        let newDate : Option String :=
          if dateStr ≠ "" then some dateStr else none
        some { store with goals := store.goals.map (fun g2 =>
          if g2.id = g.id then
            { g2 with target_amount := a, target_date := newDate }
          else g2) }

/-- `fetchGoal` of the Home component (lines 69-92 of src/app/page.tsx;
the settings page's `fetchGoal` creates the identical default).  Reads the
first goal row; when the table is empty (PGRST116) it inserts the default
goal `{target_amount: 1000000, current_amount: 0}` and uses it.  Returns
the updated table, the `goal` state and the `currentAmount` state. -/
def fetchGoalHome (goals : List Goal) (newId : String) :
    List Goal × Option Goal × ℚ :=
  match goals.head? with
  | some g => (goals, some g, jsOrZero g.current_amount)
  | none =>
    let d : Goal :=
      { id := newId, target_amount := 1000000, current_amount := 0,
        target_date := none }
    (goals ++ [d], some d, 0)

/-- C1 (code bug): the claimed increment is never applied.  A successful
income submission appends the transaction, but the goal fetch selected
only `current_amount`, so the update's `.eq('id', goalData.id)` filter
compares every row's id against the undefined fetched id and matches no
row: every goal row — in particular its `current_amount` — is left
exactly as it was, where the claim (and the spec's applyIncome) requires
`current_amount` increased by exactly the amount. -/
theorem C1_income_update_never_applied (txs : List Transaction) (g : Goal)
    (a : ℚ) (cat : String) (memo : Option String) (d : DateYMD)
    (nid : String) (hcat : cat ≠ "") (ha : 0 < a) :
    handleSubmitAdd ⟨txs, [g]⟩ TxType.income (some a) cat memo d nid =
      some ⟨txs ++ [⟨nid, TxType.income, a, cat, memo, d⟩], [g]⟩ := by
  simp [handleSubmitAdd, hcat, not_le.mpr ha, goalFetchId]

/-- Witness for C1 at the failing input: after an income of 5 the stored
current_amount is still 40, not 45. -/
theorem C1_income_update_never_applied_witness :
    handleSubmitAdd ⟨[], [⟨"g1", 1000000, 40, none⟩]⟩ TxType.income
        (some 5) "給料" none ⟨2024, 1, 5⟩ "t1" =
      some ⟨[⟨"t1", TxType.income, 5, "給料", none, ⟨2024, 1, 5⟩⟩],
            [⟨"g1", 1000000, 40, none⟩]⟩ :=
  C1_income_update_never_applied [] ⟨"g1", 1000000, 40, none⟩ 5 "給料" none
    ⟨2024, 1, 5⟩ "t1" (by decide) (by decide)

lemma deadline_fst (t nowTs tz : Int) :
    (computeDeadlineStatus (some t) nowTs tz).1 =
      some (jsCeil (((t - stripTimeOfDay tz nowTs : Int) : ℚ) / 86400000)) :=
  rfl

lemma deadline_snd (t nowTs tz : Int) :
    (computeDeadlineStatus (some t) nowTs tz).2 =
      decide (jsCeil (((t - stripTimeOfDay tz nowTs : Int) : ℚ) / 86400000)
        < 0) :=
  rfl

/-- C6: with a target date present, `daysRemaining` is the ceiling of the
timestamp difference from the midnight-normalized today divided by one
day, `isOverdue` holds exactly when it is negative, and a target exactly
10 days ahead (resp. 5 days behind) yields 10 and not overdue
(resp. -5 and overdue). -/
theorem C6_deadline_status (t nowTs tz : Int) :
    (computeDeadlineStatus (some t) nowTs tz).1 =
      some ⌈((t - stripTimeOfDay tz nowTs : Int) : ℚ) / 86400000⌉ ∧
    ((computeDeadlineStatus (some t) nowTs tz).2 = true ↔
      ⌈((t - stripTimeOfDay tz nowTs : Int) : ℚ) / 86400000⌉ < 0) ∧
    (t = stripTimeOfDay tz nowTs + 10 * 86400000 →
      (computeDeadlineStatus (some t) nowTs tz).1 = some 10 ∧
      (computeDeadlineStatus (some t) nowTs tz).2 = false) ∧
    (t = stripTimeOfDay tz nowTs - 5 * 86400000 →
      (computeDeadlineStatus (some t) nowTs tz).1 = some (-5) ∧
      (computeDeadlineStatus (some t) nowTs tz).2 = true) := by
  refine ⟨by rw [deadline_fst, jsCeil_eq], ?_, ?_, ?_⟩
  · rw [deadline_snd, jsCeil_eq]
    simp
  · intro h
    have e : ((t - stripTimeOfDay tz nowTs : Int) : ℚ) / 86400000 =
        ((10 : ℤ) : ℚ) := by
      rw [h]
      push_cast
      ring_nf
    constructor
    · rw [deadline_fst, jsCeil_eq, e, Int.ceil_intCast]
    · rw [deadline_snd, jsCeil_eq, e, Int.ceil_intCast]
      decide
  · intro h
    have e : ((t - stripTimeOfDay tz nowTs : Int) : ℚ) / 86400000 =
        ((-5 : ℤ) : ℚ) := by
      rw [h]
      push_cast
      ring_nf
    constructor
    · rw [deadline_fst, jsCeil_eq, e, Int.ceil_intCast]
    · rw [deadline_snd, jsCeil_eq, e, Int.ceil_intCast]
      decide

/-- Witness for C6 at tz = 0, now = 0, targets 10 days ahead and 5 days
behind. -/
theorem C6_deadline_status_witness :
    ((computeDeadlineStatus (some 864000000) 0 0).1 = some 10 ∧
      (computeDeadlineStatus (some 864000000) 0 0).2 = false) ∧
    ((computeDeadlineStatus (some (-432000000)) 0 0).1 = some (-5) ∧
      (computeDeadlineStatus (some (-432000000)) 0 0).2 = true) :=
  ⟨(C6_deadline_status 864000000 0 0).2.2.1 (by decide),
   (C6_deadline_status (-432000000) 0 0).2.2.2 (by decide)⟩

/-- C7: the required daily pace is computed only when not overdue and
`daysRemaining > 0`, in which case it is
`⌈(target_amount - currentAmount) / daysRemaining⌉`; when
`daysRemaining ≤ 0` nothing is computed (no division happens); and
target 1000000, current 400000, 30 days gives 20000. -/
theorem C7_required_pace (g : Goal) (c : ℚ) (d : Int) :
    (0 < d →
      requiredPaceDisplay (some g) c (some d) (decide (d < 0)) =
        some ⌈(g.target_amount - c) / (d : ℚ)⌉) ∧
    (d ≤ 0 →
      requiredPaceDisplay (some g) c (some d) (decide (d < 0)) = none) ∧
    requiredPaceDisplay (some ⟨"g1", 1000000, 400000, none⟩) 400000
      (some 30) false = some 20000 := by
  refine ⟨?_, ?_, ?_⟩
  · intro hd
    have hno : ¬ d < 0 := not_lt.mpr (le_of_lt hd)
    simp [requiredPaceDisplay, jsOptTargetAmount, jsCeil_eq, hd, hno,
      jsOrZero_eq]
  · intro hd
    have hno : ¬ (0 : Int) < d := not_lt.mpr hd
    simp [requiredPaceDisplay, hno]
  · have h30 : (0 : Int) < 30 := by decide
    simp [requiredPaceDisplay, jsOptTargetAmount, jsCeil_eq, h30,
      jsOrZero_eq]
    rw [show ((1000000 : ℚ) - 400000) / (30 : ℚ) = ((20000 : ℤ) : ℚ)
      by norm_num]
    rw [Int.ceil_intCast]

/-- Witness for C7 at d = 30 and d = -3. -/
theorem C7_required_pace_witness :
    requiredPaceDisplay (some ⟨"g1", 1000000, 400000, none⟩) 400000
        (some 30) (decide ((30 : Int) < 0)) =
      some ⌈((1000000 : ℚ) - 400000) / ((30 : Int) : ℚ)⌉ ∧
    requiredPaceDisplay (some ⟨"g1", 1000000, 400000, none⟩) 400000
        (some (-3)) (decide ((-3 : Int) < 0)) = none :=
  ⟨(C7_required_pace ⟨"g1", 1000000, 400000, none⟩ 400000 30).1 (by decide),
   (C7_required_pace ⟨"g1", 1000000, 400000, none⟩ 400000 (-3)).2.1
     (by decide)⟩

/-- C8: with a goal present the progress percentage is
`currentAmount / target_amount * 100`, unclamped (it exceeds 100 on
overshoot); only the visual bar width is clamped to at most 100; and
target 1000000 with current 250000 gives 25. -/
theorem C8_progress_percentage (g : Goal) (c : ℚ)
    (_hg : 0 < g.target_amount) :
    computeProgress (some g) c = c / g.target_amount * 100 ∧
    progressBarWidth (computeProgress (some g) c) ≤ 100 ∧
    computeProgress (some ⟨"g1", 1000000, 250000, none⟩) 250000 = 25 ∧
    100 < computeProgress (some ⟨"g1", 1000000, 250000, none⟩) 2000000 := by
  refine ⟨rfl, min_le_right _ _, ?_, ?_⟩
  · show (250000 : ℚ) / 1000000 * 100 = 25
    norm_num
  · show (100 : ℚ) < 2000000 / 1000000 * 100
    norm_num

/-- Witness for C8 at the concrete goal of the spec example. -/
theorem C8_progress_percentage_witness :
    computeProgress (some ⟨"g1", 1000000, 250000, none⟩) 250000 = 25 :=
  (C8_progress_percentage ⟨"g1", 1000000, 250000, none⟩ 250000
    (by decide)).2.2.1

/-- C9: a successful settings save rewrites only `target_amount` and
`target_date` of the goal row; `current_amount` (and the id) are
untouched. -/
theorem C9_settings_frame (txs : List Transaction) (g : Goal) (a : ℚ)
    (dateStr : String) (dv : Bool) (ha : 0 < a)
    (hdv : dateStr = "" ∨ dv = true) :
    handleSubmitSettings ⟨txs, [g]⟩ (some g) (some a) dateStr dv =
      some ⟨txs, [⟨g.id, a, g.current_amount,
                   if dateStr ≠ "" then some dateStr else none⟩]⟩ := by
  have hguard : ¬ (dateStr ≠ "" ∧ dv = false) := by
    rcases hdv with h | h <;> simp [h]
  simp [handleSubmitSettings, not_le.mpr ha, hguard]

/-- Witness for C9 at a concrete save with a date. -/
theorem C9_settings_frame_witness :
    handleSubmitSettings ⟨[], [⟨"g1", 1000000, 777, none⟩]⟩
        (some ⟨"g1", 1000000, 777, none⟩) (some 2000000) "2025-12-31"
        true =
      some ⟨[], [⟨"g1", 2000000, 777, some "2025-12-31"⟩]⟩ := by
  have h := C9_settings_frame [] ⟨"g1", 1000000, 777, none⟩ 2000000
    "2025-12-31" true (by decide) (Or.inr rfl)
  simpa using h

/-- C10: when the goals table is empty on fetch, exactly one default goal
with target_amount 1000000 and current_amount 0 is created, and with no
goal present the displayed progress is 0 for every current amount. -/
theorem C10_default_goal (nid : String) (c : ℚ) :
    (fetchGoalHome [] nid).1 = [⟨nid, 1000000, 0, none⟩] ∧
    (fetchGoalHome [] nid).1.length = 1 ∧
    (fetchGoalHome [] nid).2.2 = 0 ∧
    computeProgress none c = 0 :=
  ⟨rfl, rfl, rfl, rfl⟩

/-- The character for the decimal digit `d` (`d ≤ 9`). -/
def digitChar : Nat → Char
  | 0 => '0' | 1 => '1' | 2 => '2' | 3 => '3' | 4 => '4'
  | 5 => '5' | 6 => '6' | 7 => '7' | 8 => '8' | _ => '9'

/-- Decimal representation of a natural number, most significant digit
first — JS template interpolation of a non-negative integer number. -/
def toDec (n : Nat) : List Char :=
  if _h : n < 10 then [digitChar n]
  else toDec (n / 10) ++ [digitChar (n % 10)]
decreasing_by
  exact Nat.div_lt_self (by omega) (by omega)

/-- `String(m).padStart(2, '0')`. -/
def pad2c (m : Nat) : List Char :=
  let l := toDec m
  if l.length < 2 then List.replicate (2 - l.length) '0' ++ l else l

/-- Line 98 of src/app/analytics/page.tsx: the month key
`${date.getFullYear()}-${String(date.getMonth() + 1).padStart(2, '0')}`
as a character list. -/
def monthKeyChars (d : DateYMD) : List Char :=
  toDec d.year ++ '-' :: pad2c d.month

/-- The month key as a string. -/
def monthKey (d : DateYMD) : String := String.mk (monthKeyChars d)

/-- `s.replace('-', '年')`: a string-pattern `replace` in JS replaces only
the first occurrence. -/
def replaceFirstDash : List Char → List Char
  | [] => []
  | c :: cs => if c = '-' then '年' :: cs else c :: replaceFirstDash cs

/-- Whether the regex `(\d{2})$` matches: the string ends in two decimal
digits. -/
def endsTwoDigits (l : List Char) : Bool :=
  match l.reverse with
  | c0 :: c1 :: _ => c1.isDigit && c0.isDigit
  | _ => false

/-- Line 113 of src/app/analytics/page.tsx:
`month.replace('-', '年').replace(/(\d{2})$/, '$1月')`; the second replace
appends `月` after the trailing two digits when they exist. -/
def monthLabelChars (l : List Char) : List Char :=
  let r := replaceFirstDash l
  if endsTwoDigits r then r ++ ['月'] else r

/-- The displayed month label of a month key. -/
def monthLabel (s : String) : String := String.mk (monthLabelChars s.data)

/-- Code-point lexicographic comparison `lexLe a b ↔ a ≤ b`, modelling
`a.localeCompare(b) ≤ 0` on the month-label strings (ASCII digits and the
two CJK marker characters compare identically by code point). -/
def lexLe : List Char → List Char → Bool
  | [], _ => true
  | _ :: _, [] => false
  | a :: as, b :: bs =>
    if a.toNat < b.toNat then true
    else if b.toNat < a.toNat then false
    else lexLe as bs

/-- First-match lookup in an association list — reading `map[key]` of a JS
object used as a dictionary. -/
def assocLookup {κ β : Type} [DecidableEq κ] (m : List (κ × β)) (k : κ) :
    Option β :=
  match m with
  | [] => none
  | (k2, v) :: rest => if k2 = k then some v else assocLookup rest k

/-- Writing `map[key] = f(previous or default)` on a JS object used as a
dictionary: an existing key keeps its position, a new key is appended at
the end (JS insertion order for non-index string keys). -/
def upsert {κ β : Type} [DecidableEq κ] (m : List (κ × β)) (k : κ)
    (f : β → β) (d : β) : List (κ × β) :=
  match m with
  | [] => [(k, f d)]
  | (k2, v) :: rest =>
    if k2 = k then (k2, f v) :: rest else (k2, v) :: upsert rest k f d

/-- Lines 73-83 of src/app/analytics/page.tsx: the running `income` and
`expense` totals of `processData` (the `computeTotals` operation of the
spec). -/
def computeTotals (ts : List Transaction) : ℚ × ℚ :=
  ts.foldl (fun p t =>
    match t.type with
    | TxType.income => (p.1 + jsOrZero t.amount, p.2)
    | TxType.expense => (p.1, p.2 + jsOrZero t.amount)) (0, 0)

/-- The `CategoryData` row type of src/app/analytics/page.tsx. -/
structure CategoryData : Type where
  name : String
  value : ℚ
deriving DecidableEq, Repr

/-- The `expenseByCategory` accumulation of lines 72-83:
`expenseByCategory[t.category] = (expenseByCategory[t.category] || 0) + (t.amount || 0)`
for each expense transaction. -/
def buildCategoryMap (ts : List Transaction) : List (String × ℚ) :=
  ts.foldl (fun m t =>
    match t.type with
    | TxType.income => m
    | TxType.expense =>
      upsert m t.category (fun v => v + jsOrZero t.amount) 0) []

/-- Lines 85-87 of src/app/analytics/page.tsx (the `computeCategoryTotals`
operation of the spec): `Object.entries` of the accumulated map, mapped to
`{name, value}`, sorted by `(a, b) => b.value - a.value` (a stable sort
placing `a` before `b` when `b.value ≤ a.value`). -/
def computeCategoryTotals (ts : List Transaction) : List CategoryData :=
  ((buildCategoryMap ts).map (fun kv => CategoryData.mk kv.1 kv.2)).mergeSort
    (fun a b => decide (b.value ≤ a.value))

/-- The per-month accumulator `{ income: 0, expense: 0 }` of line 101. -/
structure MonthlyAcc : Type where
  income : ℚ
  expense : ℚ
deriving DecidableEq, Repr

/-- The `MonthlyData` row type of src/app/analytics/page.tsx; `income` and
`expense` model the `収入` and `支出` fields. -/
structure MonthlyData : Type where
  month : String
  income : ℚ
  expense : ℚ
deriving DecidableEq, Repr

/-- Lines 94-109 of src/app/analytics/page.tsx: the `monthlyMap`
accumulation keyed by month key, adding `t.amount || 0` to the income or
expense side. -/
def buildMonthlyMap (ts : List Transaction) :
    List (List Char × MonthlyAcc) :=
  ts.foldl (fun m t =>
    match t.type with
    | TxType.income =>
      upsert m (monthKeyChars t.date)
        (fun a => MonthlyAcc.mk (a.income + jsOrZero t.amount) a.expense)
        (MonthlyAcc.mk 0 0)
    | TxType.expense =>
      upsert m (monthKeyChars t.date)
        (fun a => MonthlyAcc.mk a.income (a.expense + jsOrZero t.amount))
        (MonthlyAcc.mk 0 0)) []

/-- Lines 111-118 of src/app/analytics/page.tsx (the
`computeMonthlyTotals` operation of the spec): entries of `monthlyMap`
mapped to display rows (the month key reformatted by the two `replace`
calls), sorted by `a.month.localeCompare(b.month)`, then `slice(-6)`. -/
def computeMonthlyTotals (ts : List Transaction) : List MonthlyData :=
  let arr := (buildMonthlyMap ts).map (fun kv =>
    MonthlyData.mk (String.mk (monthLabelChars kv.1)) kv.2.income
      kv.2.expense)
  let sorted := arr.mergeSort (fun a b => lexLe a.month.data b.month.data)
  sorted.drop (sorted.length - 6)

/-- Reference sum: total expense amount of a transaction list. -/
def expenseTotal : List Transaction → ℚ
  | [] => 0
  | t :: ts =>
    (match t.type with
     | TxType.income => 0
     | TxType.expense => jsOrZero t.amount) + expenseTotal ts

/-- Reference sum: total income amount of a transaction list. -/
def incomeTotal : List Transaction → ℚ
  | [] => 0
  | t :: ts =>
    (match t.type with
     | TxType.income => jsOrZero t.amount
     | TxType.expense => 0) + incomeTotal ts

/-- Reference sum: expense amount carried by category `k`. -/
def expenseSumFor (k : String) : List Transaction → ℚ
  | [] => 0
  | t :: ts =>
    (if t.type = TxType.expense ∧ t.category = k then jsOrZero t.amount
     else 0) + expenseSumFor k ts

/-- Reference sum: income amount carried by month key `k`. -/
def monthIncomeSum (k : List Char) : List Transaction → ℚ
  | [] => 0
  | t :: ts =>
    (if t.type = TxType.income ∧ monthKeyChars t.date = k then
      jsOrZero t.amount else 0) + monthIncomeSum k ts

/-- Reference sum: expense amount carried by month key `k`. -/
def monthExpenseSum (k : List Char) : List Transaction → ℚ
  | [] => 0
  | t :: ts =>
    (if t.type = TxType.expense ∧ monthKeyChars t.date = k then
      jsOrZero t.amount else 0) + monthExpenseSum k ts

/-- Numeric value of a list of decimal digit characters. -/
def digitsVal (l : List Char) : Nat :=
  l.foldl (fun a c => 10 * a + (c.toNat - 48)) 0

/-- Reading the calendar month back out of a displayed month label
"YYYY年MM月": the digits before `年` are the year, the two after it the
month. -/
def parseLabel (s : String) : Nat × Nat :=
  (digitsVal (s.data.takeWhile (fun c => c ≠ '年')),
   digitsVal (((s.data.dropWhile (fun c => c ≠ '年')).drop 1).take 2))

/-- Chronological order on (year, month) pairs. -/
def chronLe (p q : Nat × Nat) : Prop :=
  p.1 < q.1 ∨ (p.1 = q.1 ∧ p.2 ≤ q.2)

/-- Chronological order of two month labels. -/
def monthOrder (a b : String) : Prop := chronLe (parseLabel a) (parseLabel b)

/-- Accumulation over transactions into a keyed map: each transaction with
a key updates that key's entry (inserting the default first when the key
is fresh). -/
def mapAccum {κ β : Type} [DecidableEq κ] (keyOf : Transaction → Option κ)
    (upd : Transaction → β → β) (d : β) (ts : List Transaction)
    (m : List (κ × β)) : List (κ × β) :=
  ts.foldl (fun m t =>
    match keyOf t with
    | some k => upsert m k (upd t) d
    | none => m) m

/-- The cumulative effect on one key's value of all transactions carrying
that key. -/
def applyMatching {κ β : Type} [DecidableEq κ]
    (keyOf : Transaction → Option κ) (upd : Transaction → β → β) (k : κ)
    (ts : List Transaction) (b : β) : β :=
  ts.foldl (fun b t => if keyOf t = some k then upd t b else b) b

lemma assocLookup_upsert_self {κ β : Type} [DecidableEq κ]
    (m : List (κ × β)) (k : κ) (f : β → β) (d : β) :
    assocLookup (upsert m k f d) k =
      some (f ((assocLookup m k).getD d)) := by
  induction m with
  | nil => simp [upsert, assocLookup]
  | cons kv rest ih =>
    obtain ⟨k2, v⟩ := kv
    by_cases h : k2 = k
    · subst h
      simp [upsert, assocLookup]
    · simp [upsert, assocLookup, h, ih]

lemma assocLookup_upsert_ne {κ β : Type} [DecidableEq κ]
    (m : List (κ × β)) (k k3 : κ) (f : β → β) (d : β) (h : k3 ≠ k) :
    assocLookup (upsert m k f d) k3 = assocLookup m k3 := by
  induction m with
  | nil => simp [upsert, assocLookup, Ne.symm h]
  | cons kv rest ih =>
    obtain ⟨k2, v⟩ := kv
    by_cases h2 : k2 = k
    · subst h2
      simp [upsert, assocLookup, Ne.symm h]
    · simp [upsert, assocLookup, h2, ih]

lemma upsert_keys {κ β : Type} [DecidableEq κ] (m : List (κ × β)) (k : κ)
    (f : β → β) (d : β) :
    (upsert m k f d).map Prod.fst =
      if k ∈ m.map Prod.fst then m.map Prod.fst
      else m.map Prod.fst ++ [k] := by
  induction m with
  | nil => simp [upsert]
  | cons kv rest ih =>
    obtain ⟨k2, v⟩ := kv
    by_cases h : k2 = k
    · subst h
      simp [upsert]
    · by_cases hmem : k ∈ rest.map Prod.fst
      · simp [upsert, h, ih, hmem, Ne.symm h]
      · simp [upsert, h, ih, hmem, Ne.symm h]

lemma mapAccum_lookup_some {κ β : Type} [DecidableEq κ]
    (keyOf : Transaction → Option κ) (upd : Transaction → β → β) (d : β)
    (ts : List Transaction) :
    ∀ (m : List (κ × β)) (k : κ) (v : β), assocLookup m k = some v →
      assocLookup (mapAccum keyOf upd d ts m) k =
        some (applyMatching keyOf upd k ts v) := by
  induction ts with
  | nil =>
    intro m k v h
    simpa [mapAccum, applyMatching] using h
  | cons t ts ih =>
    intro m k v h
    match hk : keyOf t with
    | none =>
      have hstep : mapAccum keyOf upd d (t :: ts) m =
          mapAccum keyOf upd d ts m := by
        simp [mapAccum, hk]
      have happ : applyMatching keyOf upd k (t :: ts) v =
          applyMatching keyOf upd k ts v := by
        simp [applyMatching, hk]
      rw [hstep, happ]
      exact ih m k v h
    | some k2 =>
      by_cases hkk : k2 = k
      · subst hkk
        have hstep : mapAccum keyOf upd d (t :: ts) m =
            mapAccum keyOf upd d ts (upsert m k2 (upd t) d) := by
          simp [mapAccum, hk]
        have happ : applyMatching keyOf upd k2 (t :: ts) v =
            applyMatching keyOf upd k2 ts (upd t v) := by
          simp [applyMatching, hk]
        rw [hstep, happ]
        apply ih
        rw [assocLookup_upsert_self, h]
        simp
      · have hstep : mapAccum keyOf upd d (t :: ts) m =
            mapAccum keyOf upd d ts (upsert m k2 (upd t) d) := by
          simp [mapAccum, hk]
        have happ : applyMatching keyOf upd k (t :: ts) v =
            applyMatching keyOf upd k ts v := by
          simp [applyMatching, hk, hkk]
        rw [hstep, happ]
        apply ih
        rw [assocLookup_upsert_ne _ _ _ _ _ (fun hh => hkk hh.symm), h]

lemma mapAccum_lookup_none {κ β : Type} [DecidableEq κ]
    (keyOf : Transaction → Option κ) (upd : Transaction → β → β) (d : β)
    (ts : List Transaction) :
    ∀ (m : List (κ × β)) (k : κ), assocLookup m k = none →
      assocLookup (mapAccum keyOf upd d ts m) k =
        if ts.any (fun t => decide (keyOf t = some k)) then
          some (applyMatching keyOf upd k ts d)
        else none := by
  induction ts with
  | nil =>
    intro m k h
    simpa [mapAccum] using h
  | cons t ts ih =>
    intro m k h
    match hk : keyOf t with
    | none =>
      have hstep : mapAccum keyOf upd d (t :: ts) m =
          mapAccum keyOf upd d ts m := by
        simp [mapAccum, hk]
      rw [hstep, ih m k h]
      simp [hk, applyMatching]
    | some k2 =>
      by_cases hkk : k2 = k
      · subst hkk
        have hstep : mapAccum keyOf upd d (t :: ts) m =
            mapAccum keyOf upd d ts (upsert m k2 (upd t) d) := by
          simp [mapAccum, hk]
        rw [hstep]
        have hl : assocLookup (upsert m k2 (upd t) d) k2 =
            some (upd t d) := by
          rw [assocLookup_upsert_self, h]
          simp
        rw [mapAccum_lookup_some keyOf upd d ts _ _ _ hl]
        simp [hk, applyMatching]
      · have hstep : mapAccum keyOf upd d (t :: ts) m =
            mapAccum keyOf upd d ts (upsert m k2 (upd t) d) := by
          simp [mapAccum, hk]
        rw [hstep]
        have hl : assocLookup (upsert m k2 (upd t) d) k = none := by
          rw [assocLookup_upsert_ne _ _ _ _ _ (fun hh => hkk hh.symm), h]
        rw [ih _ k hl]
        simp [hk, hkk, applyMatching]

lemma mapAccum_keys_mem {κ β : Type} [DecidableEq κ]
    (keyOf : Transaction → Option κ) (upd : Transaction → β → β) (d : β)
    (ts : List Transaction) :
    ∀ (m : List (κ × β)) (k : κ),
      k ∈ (mapAccum keyOf upd d ts m).map Prod.fst ↔
        k ∈ m.map Prod.fst ∨ ∃ t ∈ ts, keyOf t = some k := by
  induction ts with
  | nil => intro m k; simp [mapAccum]
  | cons t ts ih =>
    intro m k
    match hk : keyOf t with
    | none =>
      have hstep : mapAccum keyOf upd d (t :: ts) m =
          mapAccum keyOf upd d ts m := by
        simp [mapAccum, hk]
      rw [hstep, ih]
      constructor
      · rintro (h | ⟨t2, ht2, hkt2⟩)
        · exact Or.inl h
        · exact Or.inr ⟨t2, List.mem_cons_of_mem t ht2, hkt2⟩
      · rintro (h | ⟨t2, ht2, hkt2⟩)
        · exact Or.inl h
        · rcases List.mem_cons.mp ht2 with h2 | h2
          · subst h2; rw [hk] at hkt2; exact absurd hkt2 (by simp)
          · exact Or.inr ⟨t2, h2, hkt2⟩
    | some k2 =>
      have hstep : mapAccum keyOf upd d (t :: ts) m =
          mapAccum keyOf upd d ts (upsert m k2 (upd t) d) := by
        simp [mapAccum, hk]
      rw [hstep, ih]
      have hup : k ∈ (upsert m k2 (upd t) d).map Prod.fst ↔
          k ∈ m.map Prod.fst ∨ k = k2 := by
        rw [upsert_keys]
        split
        · constructor
          · exact fun h => Or.inl h
          · rintro (h | h)
            · exact h
            · subst h; assumption
        · simp
      rw [hup]
      constructor
      · rintro ((h | h) | ⟨t2, ht2, hkt2⟩)
        · exact Or.inl h
        · exact Or.inr ⟨t, List.mem_cons_self t ts, by rw [hk, h]⟩
        · exact Or.inr ⟨t2, List.mem_cons_of_mem t ht2, hkt2⟩
      · rintro (h | ⟨t2, ht2, hkt2⟩)
        · exact Or.inl (Or.inl h)
        · rcases List.mem_cons.mp ht2 with h2 | h2
          · subst h2
            rw [hk] at hkt2
            exact Or.inl (Or.inr (by injection hkt2 with hh; exact hh.symm))
          · exact Or.inr ⟨t2, h2, hkt2⟩

lemma mapAccum_keys_nodup {κ β : Type} [DecidableEq κ]
    (keyOf : Transaction → Option κ) (upd : Transaction → β → β) (d : β)
    (ts : List Transaction) :
    ∀ m : List (κ × β), (m.map Prod.fst).Nodup →
      ((mapAccum keyOf upd d ts m).map Prod.fst).Nodup := by
  induction ts with
  | nil => intro m h; simpa [mapAccum] using h
  | cons t ts ih =>
    intro m h
    match hk : keyOf t with
    | none =>
      have hstep : mapAccum keyOf upd d (t :: ts) m =
          mapAccum keyOf upd d ts m := by
        simp [mapAccum, hk]
      rw [hstep]
      exact ih m h
    | some k2 =>
      have hstep : mapAccum keyOf upd d (t :: ts) m =
          mapAccum keyOf upd d ts (upsert m k2 (upd t) d) := by
        simp [mapAccum, hk]
      rw [hstep]
      apply ih
      rw [upsert_keys]
      split
      · exact h
      · next hmem =>
        rw [List.nodup_append]
        exact ⟨h, List.nodup_singleton _, by
          intro x hx hx2
          rw [List.mem_singleton] at hx2
          subst hx2
          exact hmem hx⟩

lemma assocLookup_of_mem {κ β : Type} [DecidableEq κ]
    (m : List (κ × β)) (hn : (m.map Prod.fst).Nodup) (k : κ) (v : β)
    (h : (k, v) ∈ m) : assocLookup m k = some v := by
  induction m with
  | nil => cases h
  | cons kv rest ih =>
    obtain ⟨k2, v2⟩ := kv
    rcases List.mem_cons.mp h with h2 | h2
    · injection h2 with h3 h4
      subst h3; subst h4
      simp [assocLookup]
    · have hk2 : k2 ≠ k := by
        intro hh
        subst hh
        have : k2 ∈ rest.map Prod.fst :=
          List.mem_map.mpr ⟨(k2, v), h2, rfl⟩
        exact (List.nodup_cons.mp hn).1 this
      simp [assocLookup, hk2]
      exact ih (List.nodup_cons.mp hn).2 h2

lemma mem_of_assocLookup {κ β : Type} [DecidableEq κ]
    (m : List (κ × β)) (k : κ) (v : β) (h : assocLookup m k = some v) :
    (k, v) ∈ m := by
  induction m with
  | nil => simp [assocLookup] at h
  | cons kv rest ih =>
    obtain ⟨k2, v2⟩ := kv
    by_cases h2 : k2 = k
    · subst h2
      simp [assocLookup] at h
      subst h
      exact List.mem_cons_self _ _
    · simp [assocLookup, h2] at h
      exact List.mem_cons_of_mem _ (ih h)

/-- The key on which a transaction contributes to `expenseByCategory`:
only expenses contribute, under their category label. -/
def catKey (t : Transaction) : Option String :=
  match t.type with
  | TxType.income => none
  | TxType.expense => some t.category

/-- The per-transaction update of `expenseByCategory`. -/
def catUpd (t : Transaction) (v : ℚ) : ℚ := v + jsOrZero t.amount

/-- Every transaction contributes to `monthlyMap` under its month key. -/
def monKey (t : Transaction) : Option (List Char) :=
  some (monthKeyChars t.date)

/-- The per-transaction update of `monthlyMap`. -/
def monUpd (t : Transaction) (a : MonthlyAcc) : MonthlyAcc :=
  match t.type with
  | TxType.income => MonthlyAcc.mk (a.income + jsOrZero t.amount) a.expense
  | TxType.expense => MonthlyAcc.mk a.income (a.expense + jsOrZero t.amount)

lemma buildCategoryMap_eq (ts : List Transaction) :
    buildCategoryMap ts = mapAccum catKey catUpd 0 ts [] := by
  unfold buildCategoryMap mapAccum
  congr 1
  funext m t
  cases h : t.type
  · simp [catKey, h]
  · simp [catKey, h]
    rfl

lemma buildMonthlyMap_eq (ts : List Transaction) :
    buildMonthlyMap ts = mapAccum monKey monUpd (MonthlyAcc.mk 0 0) ts [] := by
  unfold buildMonthlyMap mapAccum
  congr 1
  funext m t
  cases h : t.type
  · simp [monKey]
    congr 1
    funext a
    simp [monUpd, h]
  · simp [monKey]
    congr 1
    funext a
    simp [monUpd, h]

lemma upsert_snd_sum (m : List (String × ℚ)) (k : String) (a : ℚ) :
    ((upsert m k (fun v => v + a) 0).map Prod.snd).sum =
      (m.map Prod.snd).sum + a := by
  induction m with
  | nil => simp [upsert]
  | cons kv rest ih =>
    obtain ⟨k2, v⟩ := kv
    by_cases h : k2 = k
    · subst h
      simp [upsert]
      ring
    · simp [upsert, h, ih]
      ring

lemma mapAccum_cat_sum (ts : List Transaction) :
    ∀ m : List (String × ℚ),
      ((mapAccum catKey catUpd 0 ts m).map Prod.snd).sum =
        (m.map Prod.snd).sum + expenseTotal ts := by
  induction ts with
  | nil => intro m; simp [mapAccum, expenseTotal]
  | cons t ts ih =>
    intro m
    cases h : t.type
    · have hstep : mapAccum catKey catUpd 0 (t :: ts) m =
          mapAccum catKey catUpd 0 ts m := by
        simp [mapAccum, catKey, h]
      rw [hstep, ih]
      simp [expenseTotal, h]
    · have hstep : mapAccum catKey catUpd 0 (t :: ts) m =
          mapAccum catKey catUpd 0 ts
            (upsert m t.category (catUpd t) 0) := by
        simp [mapAccum, catKey, h]
      have hupd : catUpd t = fun v => v + jsOrZero t.amount := rfl
      rw [hstep, ih, hupd, upsert_snd_sum]
      simp [expenseTotal, h]
      ring

lemma computeTotals_eq (ts : List Transaction) :
    computeTotals ts = (incomeTotal ts, expenseTotal ts) := by
  have aux : ∀ (l : List Transaction) (p : ℚ × ℚ),
      l.foldl (fun p t =>
        match t.type with
        | TxType.income => (p.1 + jsOrZero t.amount, p.2)
        | TxType.expense => (p.1, p.2 + jsOrZero t.amount)) p =
        (p.1 + incomeTotal l, p.2 + expenseTotal l) := by
    intro l
    induction l with
    | nil => intro p; simp [incomeTotal, expenseTotal]
    | cons t ts ih =>
      intro p
      rw [List.foldl_cons]
      cases h : t.type
      · simp only [h]
        rw [ih]
        simp [incomeTotal, expenseTotal, h]
        ring
      · simp only [h]
        rw [ih]
        simp [incomeTotal, expenseTotal, h]
        ring
  unfold computeTotals
  rw [aux]
  simp

lemma applyMatching_cat (k : String) (ts : List Transaction) :
    ∀ v : ℚ, applyMatching catKey catUpd k ts v = v + expenseSumFor k ts := by
  induction ts with
  | nil => intro v; simp [applyMatching, expenseSumFor]
  | cons t ts ih =>
    intro v
    cases h : t.type
    · have hstep : applyMatching catKey catUpd k (t :: ts) v =
          applyMatching catKey catUpd k ts v := by
        simp [applyMatching, catKey, h]
      rw [hstep, ih]
      simp [expenseSumFor, h]
    · by_cases hc : t.category = k
      · have hstep : applyMatching catKey catUpd k (t :: ts) v =
            applyMatching catKey catUpd k ts (v + jsOrZero t.amount) := by
          simp [applyMatching, catKey, catUpd, h, hc]
        rw [hstep, ih]
        simp [expenseSumFor, h, hc]
        ring
      · have hstep : applyMatching catKey catUpd k (t :: ts) v =
            applyMatching catKey catUpd k ts v := by
          simp [applyMatching, catKey, h, hc]
        rw [hstep, ih]
        simp [expenseSumFor, h, hc]

/-- C3: the values of `computeCategoryTotals` sum to exactly the total
expense side of `computeTotals`, for every transaction sequence. -/
theorem C3_category_sum_crosscheck (ts : List Transaction) :
    ((computeCategoryTotals ts).map CategoryData.value).sum =
      (computeTotals ts).2 := by
  have hperm : (computeCategoryTotals ts).Perm
      ((buildCategoryMap ts).map (fun kv => CategoryData.mk kv.1 kv.2)) :=
    List.mergeSort_perm _ _
  have h1 := (hperm.map CategoryData.value).sum_eq
  rw [h1]
  have h2 : (((buildCategoryMap ts).map
      (fun kv => CategoryData.mk kv.1 kv.2)).map CategoryData.value) =
      (buildCategoryMap ts).map Prod.snd := by
    rw [List.map_map]
    rfl
  rw [h2, buildCategoryMap_eq, mapAccum_cat_sum, computeTotals_eq]
  simp

lemma catKey_eq_some (t : Transaction) (n : String) :
    catKey t = some n ↔ t.type = TxType.expense ∧ t.category = n := by
  cases h : t.type <;> simp [catKey, h]

lemma catSort_pairwise (l : List CategoryData) :
    (l.mergeSort (fun a b => decide (b.value ≤ a.value))).Pairwise
      (fun a b => decide (b.value ≤ a.value) = true) := by
  apply List.sorted_mergeSort
  · intro a b c hab hbc
    simp only [decide_eq_true_eq] at *
    exact le_trans hbc hab
  · intro a b
    rcases le_total b.value a.value with h | h <;> simp [h]

/-- C4: `computeCategoryTotals` accounts exactly for the expense
transactions: every output row's value is the summed amount of the expense
transactions with exactly (case-sensitively) that category, the category
names are pairwise distinct and are exactly the categories of the expense
transactions of the input, and the rows are ordered non-increasing by
value. -/
theorem C4_category_totals (ts : List Transaction) :
    (∀ e ∈ computeCategoryTotals ts, e.value = expenseSumFor e.name ts) ∧
    ((computeCategoryTotals ts).map CategoryData.name).Nodup ∧
    (∀ n : String,
      n ∈ (computeCategoryTotals ts).map CategoryData.name ↔
        ∃ t ∈ ts, t.type = TxType.expense ∧ t.category = n) ∧
    (computeCategoryTotals ts).Pairwise (fun a b => b.value ≤ a.value) := by
  have hperm : (computeCategoryTotals ts).Perm
      ((buildCategoryMap ts).map (fun kv => CategoryData.mk kv.1 kv.2)) :=
    List.mergeSort_perm _ _
  have hnodupkeys : ((buildCategoryMap ts).map Prod.fst).Nodup := by
    rw [buildCategoryMap_eq]
    exact mapAccum_keys_nodup _ _ _ _ [] (by simp)
  have hnameperm : ((computeCategoryTotals ts).map CategoryData.name).Perm
      ((buildCategoryMap ts).map Prod.fst) := by
    have h := hperm.map CategoryData.name
    rw [List.map_map] at h
    exact h
  refine ⟨?_, ?_, ?_, ?_⟩
  · intro e he
    have he2 : e ∈ (buildCategoryMap ts).map
        (fun kv => CategoryData.mk kv.1 kv.2) := hperm.mem_iff.mp he
    obtain ⟨kv, hkv, hkve⟩ := List.mem_map.mp he2
    obtain ⟨k, v⟩ := kv
    have hlook : assocLookup (buildCategoryMap ts) k = some v :=
      assocLookup_of_mem _ hnodupkeys _ _ hkv
    rw [buildCategoryMap_eq,
      mapAccum_lookup_none catKey catUpd 0 ts [] k rfl] at hlook
    by_cases hany : ts.any (fun t => decide (catKey t = some k))
    · rw [if_pos hany] at hlook
      injection hlook with hv
      rw [← hkve]
      show v = expenseSumFor k ts
      rw [← hv, applyMatching_cat]
      simp
    · rw [if_neg hany] at hlook
      cases hlook
  · exact hnameperm.nodup_iff.mpr hnodupkeys
  · intro n
    rw [hnameperm.mem_iff, buildCategoryMap_eq,
      mapAccum_keys_mem catKey catUpd 0 ts [] n]
    simp only [List.map_nil, List.not_mem_nil, false_or]
    constructor
    · rintro ⟨t, ht, hkt⟩
      exact ⟨t, ht, (catKey_eq_some t n).mp hkt⟩
    · rintro ⟨t, ht, hkt⟩
      exact ⟨t, ht, (catKey_eq_some t n).mpr hkt⟩
  · have hs := catSort_pairwise
      ((buildCategoryMap ts).map (fun kv => CategoryData.mk kv.1 kv.2))
    have hout : computeCategoryTotals ts =
        ((buildCategoryMap ts).map
          (fun kv => CategoryData.mk kv.1 kv.2)).mergeSort
          (fun a b => decide (b.value ≤ a.value)) := rfl
    rw [hout]
    exact hs.imp (by intro a b h; simpa using h)

/-- Witness for C4: the per-row sum property and the ordering at a
two-transaction input. -/
theorem C4_category_totals_witness :
    (CategoryData.mk "食費" 300 ∈ computeCategoryTotals
      [⟨"t1", TxType.expense, 300, "食費", none, ⟨2024, 1, 10⟩⟩] →
      (CategoryData.mk "食費" 300).value =
        expenseSumFor (CategoryData.mk "食費" 300).name
          [⟨"t1", TxType.expense, 300, "食費", none, ⟨2024, 1, 10⟩⟩]) ∧
    (computeCategoryTotals
      [⟨"t1", TxType.expense, 300, "食費", none, ⟨2024, 1, 10⟩⟩]).Pairwise
      (fun a b => b.value ≤ a.value) :=
  ⟨fun h => (C4_category_totals
      [⟨"t1", TxType.expense, 300, "食費", none, ⟨2024, 1, 10⟩⟩]).1
      (CategoryData.mk "食費" 300) h,
   (C4_category_totals
      [⟨"t1", TxType.expense, 300, "食費", none, ⟨2024, 1, 10⟩⟩]).2.2.2⟩

/-- The example input of the spec: income 1000 on 2024-01-05, expense 300
(food) on 2024-01-10, income 500 on 2024-02-01. -/
def exampleTxs : List Transaction :=
  [⟨"t1", TxType.income, 1000, "salary", none, ⟨2024, 1, 5⟩⟩,
   ⟨"t2", TxType.expense, 300, "food", none, ⟨2024, 1, 10⟩⟩,
   ⟨"t3", TxType.income, 500, "salary", none, ⟨2024, 2, 1⟩⟩]

lemma monthly_example_eval :
    computeMonthlyTotals exampleTxs =
      [MonthlyData.mk "2024年01月" 1000 300,
       MonthlyData.mk "2024年02月" 500 0] := by
  have hk1 : monthKeyChars ⟨2024, 1, 5⟩ = ['2', '0', '2', '4', '-', '0', '1'] := by
    simp [monthKeyChars, toDec, pad2c, digitChar]
  have hk1b : monthKeyChars ⟨2024, 1, 10⟩ = ['2', '0', '2', '4', '-', '0', '1'] := by
    simp [monthKeyChars, toDec, pad2c, digitChar]
  have hk2 : monthKeyChars ⟨2024, 2, 1⟩ = ['2', '0', '2', '4', '-', '0', '2'] := by
    simp [monthKeyChars, toDec, pad2c, digitChar]
  have hmap : buildMonthlyMap exampleTxs =
      [(['2', '0', '2', '4', '-', '0', '1'], MonthlyAcc.mk 1000 300),
       (['2', '0', '2', '4', '-', '0', '2'], MonthlyAcc.mk 500 0)] := by
    simp [buildMonthlyMap, exampleTxs, hk1, hk1b, hk2, upsert, jsOrZero]
  have hl1 : monthLabelChars ['2', '0', '2', '4', '-', '0', '1'] =
      ['2', '0', '2', '4', '年', '0', '1', '月'] := by
    simp [monthLabelChars, replaceFirstDash, endsTwoDigits]
  have hl2 : monthLabelChars ['2', '0', '2', '4', '-', '0', '2'] =
      ['2', '0', '2', '4', '年', '0', '2', '月'] := by
    simp [monthLabelChars, replaceFirstDash, endsTwoDigits]
  have hdata : ∀ l : List Char, (String.mk l).data = l := fun l => rfl
  have hcmp : lexLe ['2', '0', '2', '4', '年', '0', '1', '月']
      ['2', '0', '2', '4', '年', '0', '2', '月'] = true := by decide
  rw [computeMonthlyTotals, hmap]
  simp [hl1, hl2, hdata, hcmp, List.mergeSort, List.merge]

/-- C2 counterexample: on the spec's example input the monthly rows do
not carry the zero-padded "YYYY-MM" keys as their month field — the code
reformats the key through
`month.replace('-', '年').replace(/(\d{2})$/, '$1月')` before returning,
so the claimed output value is not the computed one. -/
theorem C2_monthly_example_counterexample :
    computeMonthlyTotals exampleTxs ≠
      [MonthlyData.mk "2024-01" 1000 300, MonthlyData.mk "2024-02" 500 0] := by
  rw [monthly_example_eval]
  decide

/-- C2 amended: on the spec's example input `computeMonthlyTotals` returns
exactly the January row (income 1000, expense 300) followed by the
February row (income 500, expense 0), the month fields being the
"YYYY年MM月" renderings of the zero-padded "YYYY-MM" keys. -/
theorem C2_monthly_example :
    computeMonthlyTotals exampleTxs =
      [MonthlyData.mk "2024年01月" 1000 300,
       MonthlyData.mk "2024年02月" 500 0] :=
  monthly_example_eval

lemma digitChar_ne_dash (x : Nat) : (digitChar x = '-') = False := by
  match x with
  | 0 => decide
  | 1 => decide
  | 2 => decide
  | 3 => decide
  | 4 => decide
  | 5 => decide
  | 6 => decide
  | 7 => decide
  | 8 => decide
  | n + 9 =>
    show (('9' : Char) = '-') = False
    decide

lemma digitChar_ne_year (x : Nat) : (digitChar x = '年') = False := by
  match x with
  | 0 => decide
  | 1 => decide
  | 2 => decide
  | 3 => decide
  | 4 => decide
  | 5 => decide
  | 6 => decide
  | 7 => decide
  | 8 => decide
  | n + 9 =>
    show (('9' : Char) = '年') = False
    decide

lemma digitChar_isDigit (x : Nat) : (digitChar x).isDigit = true := by
  match x with
  | 0 => decide
  | 1 => decide
  | 2 => decide
  | 3 => decide
  | 4 => decide
  | 5 => decide
  | 6 => decide
  | 7 => decide
  | 8 => decide
  | n + 9 =>
    show ('9' : Char).isDigit = true
    decide

lemma digitChar_toNat : ∀ x < 10, (digitChar x).toNat = 48 + x := by decide

lemma toDec_lt_ten (n : Nat) (h : n < 10) : toDec n = [digitChar n] := by
  rw [toDec]
  simp [h]

lemma toDec_two (m : Nat) (h1 : 10 ≤ m) (h2 : m < 100) :
    toDec m = [digitChar (m / 10), digitChar (m % 10)] := by
  have ha : ¬ m < 10 := by omega
  have hb : m / 10 < 10 := by omega
  rw [toDec]
  simp only [ha, dite_false]
  rw [toDec_lt_ten _ hb]
  rfl

lemma toDec_four (y : Nat) (h1 : 1000 ≤ y) (h2 : y < 10000) :
    toDec y = [digitChar (y / 1000), digitChar (y / 100 % 10),
      digitChar (y / 10 % 10), digitChar (y % 10)] := by
  have ha : ¬ y < 10 := by omega
  have hb : 10 ≤ y / 10 := by omega
  have hb2 : y / 10 < 1000 := by omega
  have hc : 10 ≤ y / 100 := by omega
  have hc2 : y / 100 < 100 := by omega
  have e1 : y / 10 / 10 = y / 100 := by omega
  have e2 : y / 100 / 10 = y / 1000 := by omega
  have e3 : y / 100 % 10 = y / 10 / 10 % 10 := by omega
  rw [toDec]
  simp only [ha, dite_false]
  rw [toDec]
  simp only [show ¬ y / 10 < 10 by omega, dite_false]
  rw [e1, toDec_two _ hc hc2, e2, e3, e1]
  rfl

lemma pad2c_eq (m : Nat) (h1 : 1 ≤ m) (h2 : m < 100) :
    pad2c m = [digitChar (m / 10), digitChar (m % 10)] := by
  by_cases h : m < 10
  · have ht : toDec m = [digitChar m] := toDec_lt_ten m h
    have hm10 : m / 10 = 0 := by omega
    have hmm : m % 10 = m := by omega
    simp [pad2c, ht, hm10, hmm, List.replicate]
    rfl
  · have ht : toDec m = [digitChar (m / 10), digitChar (m % 10)] :=
      toDec_two m (by omega) h2
    simp [pad2c, ht]

/-- The shape of a month label for a 4-digit year: the four year digits,
`年`, the two zero-padded month digits, `月`. -/
def labelChars (y m : Nat) : List Char :=
  [digitChar (y / 1000), digitChar (y / 100 % 10), digitChar (y / 10 % 10),
   digitChar (y % 10), '年', digitChar (m / 10), digitChar (m % 10), '月']

lemma monthKeyChars_shape (d : DateYMD) (hy1 : 1000 ≤ d.year)
    (hy2 : d.year < 10000) (hm1 : 1 ≤ d.month) (hm2 : d.month ≤ 12) :
    monthKeyChars d = [digitChar (d.year / 1000), digitChar (d.year / 100 % 10),
      digitChar (d.year / 10 % 10), digitChar (d.year % 10), '-',
      digitChar (d.month / 10), digitChar (d.month % 10)] := by
  unfold monthKeyChars
  rw [toDec_four _ hy1 hy2, pad2c_eq _ hm1 (by omega)]
  rfl

lemma monthLabelChars_shape (d : DateYMD) (hy1 : 1000 ≤ d.year)
    (hy2 : d.year < 10000) (hm1 : 1 ≤ d.month) (hm2 : d.month ≤ 12) :
    monthLabelChars (monthKeyChars d) = labelChars d.year d.month := by
  rw [monthKeyChars_shape d hy1 hy2 hm1 hm2]
  unfold monthLabelChars
  have hrep : replaceFirstDash [digitChar (d.year / 1000),
      digitChar (d.year / 100 % 10), digitChar (d.year / 10 % 10),
      digitChar (d.year % 10), '-', digitChar (d.month / 10),
      digitChar (d.month % 10)] =
      [digitChar (d.year / 1000), digitChar (d.year / 100 % 10),
       digitChar (d.year / 10 % 10), digitChar (d.year % 10), '年',
       digitChar (d.month / 10), digitChar (d.month % 10)] := by
    simp [replaceFirstDash, digitChar_ne_dash]
  rw [hrep]
  have hend : endsTwoDigits [digitChar (d.year / 1000),
      digitChar (d.year / 100 % 10), digitChar (d.year / 10 % 10),
      digitChar (d.year % 10), '年', digitChar (d.month / 10),
      digitChar (d.month % 10)] = true := by
    simp [endsTwoDigits, digitChar_isDigit]
  simp [hend, labelChars]

lemma parseLabel_label (y m : Nat) (hy1 : 1000 ≤ y) (hy2 : y < 10000)
    (hm1 : 1 ≤ m) (hm2 : m ≤ 12) :
    parseLabel (String.mk (labelChars y m)) = (y, m) := by
  have t1 : (digitChar (y / 1000)).toNat = 48 + y / 1000 :=
    digitChar_toNat _ (by omega)
  have t2 : (digitChar (y / 100 % 10)).toNat = 48 + y / 100 % 10 :=
    digitChar_toNat _ (by omega)
  have t3 : (digitChar (y / 10 % 10)).toNat = 48 + y / 10 % 10 :=
    digitChar_toNat _ (by omega)
  have t4 : (digitChar (y % 10)).toNat = 48 + y % 10 :=
    digitChar_toNat _ (by omega)
  have t5 : (digitChar (m / 10)).toNat = 48 + m / 10 :=
    digitChar_toNat _ (by omega)
  have t6 : (digitChar (m % 10)).toNat = 48 + m % 10 :=
    digitChar_toNat _ (by omega)
  have hdata : (String.mk (labelChars y m)).data = labelChars y m := rfl
  unfold parseLabel
  rw [hdata]
  unfold labelChars
  simp [List.takeWhile, List.dropWhile, digitChar_ne_year, digitsVal,
    t1, t2, t3, t4, t5, t6]
  omega

lemma lexLe_trans (x : List Char) :
    ∀ y z : List Char, lexLe x y = true → lexLe y z = true →
      lexLe x z = true := by
  induction x with
  | nil =>
    intro y z _ _
    simp [lexLe]
  | cons a as ih =>
    intro y z hxy hyz
    cases y with
    | nil => simp [lexLe] at hxy
    | cons b bs =>
      cases z with
      | nil => simp [lexLe] at hyz
      | cons c cs =>
        rw [lexLe] at hxy hyz ⊢
        split_ifs at hxy hyz ⊢ <;>
          first
            | rfl
            | omega
            | exact ih bs cs hxy hyz

lemma lexLe_total (x : List Char) :
    ∀ y : List Char, (lexLe x y || lexLe y x) = true := by
  induction x with
  | nil =>
    intro y
    simp [lexLe]
  | cons a as ih =>
    intro y
    cases y with
    | nil => simp [lexLe]
    | cons b bs =>
      rw [lexLe, lexLe]
      split_ifs <;> first | exact ih bs | simp

lemma lexLe_nil_left (y : List Char) : lexLe [] y = true := rfl

lemma lexLe_cons (a b : Char) (as bs : List Char) :
    lexLe (a :: as) (b :: bs) = true ↔
      a.toNat < b.toNat ∨ (a.toNat = b.toNat ∧ lexLe as bs = true) := by
  rw [lexLe]
  split_ifs with h1 h2
  · simp [h1]
  · have hno : ¬ (a.toNat < b.toNat ∨
        (a.toNat = b.toNat ∧ lexLe as bs = true)) := by
      rintro (h | ⟨h, _⟩) <;> omega
    simp [hno]
  · have he : a.toNat = b.toNat := by omega
    simp [he, h1]

lemma lexLe_label (y m y2 m2 : Nat) (hy1 : 1000 ≤ y) (hy2 : y < 10000)
    (hm1 : 1 ≤ m) (hm2 : m ≤ 12) (hy3 : 1000 ≤ y2) (hy4 : y2 < 10000)
    (hm3 : 1 ≤ m2) (hm4 : m2 ≤ 12) :
    lexLe (labelChars y m) (labelChars y2 m2) = true ↔
      chronLe (y, m) (y2, m2) := by
  have t1 : (digitChar (y / 1000)).toNat = 48 + y / 1000 :=
    digitChar_toNat _ (by omega)
  have t2 : (digitChar (y / 100 % 10)).toNat = 48 + y / 100 % 10 :=
    digitChar_toNat _ (by omega)
  have t3 : (digitChar (y / 10 % 10)).toNat = 48 + y / 10 % 10 :=
    digitChar_toNat _ (by omega)
  have t4 : (digitChar (y % 10)).toNat = 48 + y % 10 :=
    digitChar_toNat _ (by omega)
  have t5 : (digitChar (m / 10)).toNat = 48 + m / 10 :=
    digitChar_toNat _ (by omega)
  have t6 : (digitChar (m % 10)).toNat = 48 + m % 10 :=
    digitChar_toNat _ (by omega)
  have u1 : (digitChar (y2 / 1000)).toNat = 48 + y2 / 1000 :=
    digitChar_toNat _ (by omega)
  have u2 : (digitChar (y2 / 100 % 10)).toNat = 48 + y2 / 100 % 10 :=
    digitChar_toNat _ (by omega)
  have u3 : (digitChar (y2 / 10 % 10)).toNat = 48 + y2 / 10 % 10 :=
    digitChar_toNat _ (by omega)
  have u4 : (digitChar (y2 % 10)).toNat = 48 + y2 % 10 :=
    digitChar_toNat _ (by omega)
  have u5 : (digitChar (m2 / 10)).toNat = 48 + m2 / 10 :=
    digitChar_toNat _ (by omega)
  have u6 : (digitChar (m2 % 10)).toNat = 48 + m2 % 10 :=
    digitChar_toNat _ (by omega)
  simp only [labelChars, lexLe_cons, lexLe_nil_left, t1, t2, t3, t4, t5,
    t6, u1, u2, u3, u4, u5, u6, chronLe]
  clear t1 t2 t3 t4 t5 t6 u1 u2 u3 u4 u5 u6
  simp only [Nat.add_lt_add_iff_left, Nat.add_left_cancel_iff,
    lt_self_iff_false, false_or, true_and, and_true]
  omega

/-- The pre-sort display rows of `computeMonthlyTotals`. -/
def arrOf (ts : List Transaction) : List MonthlyData :=
  (buildMonthlyMap ts).map (fun kv =>
    MonthlyData.mk (String.mk (monthLabelChars kv.1)) kv.2.income
      kv.2.expense)

/-- The sorted display rows of `computeMonthlyTotals`. -/
def sortedOf (ts : List Transaction) : List MonthlyData :=
  (arrOf ts).mergeSort (fun a b => lexLe a.month.data b.month.data)

lemma computeMonthlyTotals_eq (ts : List Transaction) :
    computeMonthlyTotals ts =
      (sortedOf ts).drop ((sortedOf ts).length - 6) := rfl

lemma monSort_pairwise (l : List MonthlyData) :
    (l.mergeSort (fun a b => lexLe a.month.data b.month.data)).Pairwise
      (fun a b => lexLe a.month.data b.month.data = true) := by
  apply List.sorted_mergeSort
  · intro a b c hab hbc
    exact lexLe_trans _ _ _ hab hbc
  · intro a b
    exact lexLe_total _ _

lemma monthly_keys_mem (ts : List Transaction) (k : List Char) :
    k ∈ (buildMonthlyMap ts).map Prod.fst ↔
      ∃ t ∈ ts, monthKeyChars t.date = k := by
  rw [buildMonthlyMap_eq, mapAccum_keys_mem]
  simp [monKey]

lemma arr_month_of_mem (ts : List Transaction) (e : MonthlyData)
    (he : e ∈ arrOf ts) :
    ∃ k, k ∈ (buildMonthlyMap ts).map Prod.fst ∧
      e.month = String.mk (monthLabelChars k) := by
  obtain ⟨kv, hkv, hkve⟩ := List.mem_map.mp he
  exact ⟨kv.1, List.mem_map.mpr ⟨kv, hkv, rfl⟩, by rw [← hkve]⟩

lemma arr_month_label (ts : List Transaction)
    (hr : ∀ t ∈ ts, 1000 ≤ t.date.year ∧ t.date.year < 10000 ∧
      1 ≤ t.date.month ∧ t.date.month ≤ 12) (e : MonthlyData)
    (he : e ∈ arrOf ts) :
    ∃ y m, (1000 ≤ y ∧ y < 10000 ∧ 1 ≤ m ∧ m ≤ 12) ∧
      e.month = String.mk (labelChars y m) := by
  obtain ⟨k, hk, hm⟩ := arr_month_of_mem ts e he
  obtain ⟨t, ht, hkt⟩ := (monthly_keys_mem ts k).mp hk
  obtain ⟨h1, h2, h3, h4⟩ := hr t ht
  refine ⟨t.date.year, t.date.month, ⟨h1, h2, h3, h4⟩, ?_⟩
  rw [hm, ← hkt, monthLabelChars_shape t.date h1 h2 h3 h4]

lemma monthly_transfer (ts : List Transaction)
    (hr : ∀ t ∈ ts, 1000 ≤ t.date.year ∧ t.date.year < 10000 ∧
      1 ≤ t.date.month ∧ t.date.month ≤ 12) (a b : MonthlyData)
    (ha : a ∈ arrOf ts) (hb : b ∈ arrOf ts)
    (hle : lexLe a.month.data b.month.data = true) :
    monthOrder a.month b.month := by
  obtain ⟨y, m, ⟨hy1, hy2, hm1, hm2⟩, hma⟩ := arr_month_label ts hr a ha
  obtain ⟨y2, m2, ⟨hy3, hy4, hm3, hm4⟩, hmb⟩ := arr_month_label ts hr b hb
  rw [hma, hmb] at hle ⊢
  have hdataa : (String.mk (labelChars y m)).data = labelChars y m := rfl
  have hdatab : (String.mk (labelChars y2 m2)).data = labelChars y2 m2 := rfl
  rw [hdataa, hdatab] at hle
  unfold monthOrder
  rw [parseLabel_label y m hy1 hy2 hm1 hm2,
    parseLabel_label y2 m2 hy3 hy4 hm3 hm4]
  exact (lexLe_label y m y2 m2 hy1 hy2 hm1 hm2 hy3 hy4 hm3 hm4).mp hle

lemma monthly_label_mem_arr (ts : List Transaction) (t : Transaction)
    (ht : t ∈ ts) :
    ∃ a ∈ arrOf ts, a.month = monthLabel (monthKey t.date) := by
  have hk : monthKeyChars t.date ∈ (buildMonthlyMap ts).map Prod.fst :=
    (monthly_keys_mem ts _).mpr ⟨t, ht, rfl⟩
  obtain ⟨kv, hkv, hkk⟩ := List.mem_map.mp hk
  refine ⟨MonthlyData.mk (String.mk (monthLabelChars kv.1)) kv.2.income
    kv.2.expense, List.mem_map.mpr ⟨kv, hkv, rfl⟩, ?_⟩
  show String.mk (monthLabelChars kv.1) = monthLabel (monthKey t.date)
  rw [hkk]
  rfl

/-- C5 (amended): for inputs whose dates carry 4-digit years,
`computeMonthlyTotals` returns at most 6 rows, chronologically ascending,
these are the most recent months present in the input (every month of the
input that is not shown precedes every shown month), and when at most 6
distinct months occur every month of the input is shown. -/
theorem C5_monthly_window (ts : List Transaction)
    (hr : ∀ t ∈ ts, 1000 ≤ t.date.year ∧ t.date.year < 10000 ∧
      1 ≤ t.date.month ∧ t.date.month ≤ 12) :
    (computeMonthlyTotals ts).length ≤ 6 ∧
    (computeMonthlyTotals ts).Pairwise
      (fun a b => monthOrder a.month b.month) ∧
    (∀ t ∈ ts,
      monthLabel (monthKey t.date) ∉
        (computeMonthlyTotals ts).map MonthlyData.month →
      ∀ e ∈ computeMonthlyTotals ts,
        monthOrder (monthLabel (monthKey t.date)) e.month) ∧
    ((ts.map (fun t => monthKeyChars t.date)).dedup.length ≤ 6 →
      ∀ t ∈ ts, monthLabel (monthKey t.date) ∈
        (computeMonthlyTotals ts).map MonthlyData.month) := by
  have hperm : (sortedOf ts).Perm (arrOf ts) := List.mergeSort_perm _ _
  have hpw : (sortedOf ts).Pairwise
      (fun a b => lexLe a.month.data b.month.data = true) :=
    monSort_pairwise (arrOf ts)
  have hout := computeMonthlyTotals_eq ts
  have hom : ∀ x ∈ computeMonthlyTotals ts, x ∈ arrOf ts := by
    intro x hx
    rw [hout] at hx
    exact hperm.mem_iff.mp ((List.drop_sublist _ _).subset hx)
  refine ⟨?_, ?_, ?_, ?_⟩
  · rw [hout, List.length_drop]
    omega
  · have h1 : (computeMonthlyTotals ts).Pairwise
        (fun a b => lexLe a.month.data b.month.data = true) := by
      rw [hout]
      exact hpw.sublist (List.drop_sublist _ _)
    refine h1.imp_of_mem ?_
    intro a b ha hb h
    exact monthly_transfer ts hr a b (hom a ha) (hom b hb) h
  · intro t ht hnot e heo
    obtain ⟨a, haarr, ham⟩ := monthly_label_mem_arr ts t ht
    have hasort : a ∈ sortedOf ts := hperm.mem_iff.mpr haarr
    have hsplit := List.take_append_drop ((sortedOf ts).length - 6)
      (sortedOf ts)
    have hcase : a ∈ (sortedOf ts).take ((sortedOf ts).length - 6) ∨
        a ∈ (sortedOf ts).drop ((sortedOf ts).length - 6) :=
      List.mem_append.mp (by rw [hsplit]; exact hasort)
    rcases hcase with htake | hdrop
    · have h2 : ((sortedOf ts).take ((sortedOf ts).length - 6) ++
          (sortedOf ts).drop ((sortedOf ts).length - 6)).Pairwise
          (fun a b => lexLe a.month.data b.month.data = true) := by
        rw [hsplit]
        exact hpw
      have hcross := (List.pairwise_append.mp h2).2.2
      have heodrop : e ∈ (sortedOf ts).drop ((sortedOf ts).length - 6) := by
        rw [← hout]
        exact heo
      have hR := hcross a htake e heodrop
      have hmo := monthly_transfer ts hr a e haarr (hom e heo) hR
      rw [ham] at hmo
      exact hmo
    · exfalso
      apply hnot
      rw [hout]
      exact List.mem_map.mpr ⟨a, hdrop, ham⟩
  · intro hlen t ht
    have hnodup : ((buildMonthlyMap ts).map Prod.fst).Nodup := by
      rw [buildMonthlyMap_eq]
      exact mapAccum_keys_nodup _ _ _ _ [] (by simp)
    have hfs : ((buildMonthlyMap ts).map Prod.fst).toFinset =
        (ts.map (fun t => monthKeyChars t.date)).toFinset := by
      ext k
      simp only [List.mem_toFinset]
      rw [monthly_keys_mem]
      simp [List.mem_map]
    have hklen : ((buildMonthlyMap ts).map Prod.fst).length =
        (ts.map (fun t => monthKeyChars t.date)).dedup.length := by
      calc ((buildMonthlyMap ts).map Prod.fst).length
          = ((buildMonthlyMap ts).map Prod.fst).dedup.length := by
            rw [hnodup.dedup]
        _ = ((buildMonthlyMap ts).map Prod.fst).toFinset.card :=
            (List.card_toFinset _).symm
        _ = (ts.map (fun t => monthKeyChars t.date)).toFinset.card := by
            rw [hfs]
        _ = (ts.map (fun t => monthKeyChars t.date)).dedup.length :=
            List.card_toFinset _
    have hs1 : (sortedOf ts).length = (arrOf ts).length := by
      simp [sortedOf]
    have hs2 : (arrOf ts).length =
        ((buildMonthlyMap ts).map Prod.fst).length := by
      simp [arrOf]
    have hdrop0 : (sortedOf ts).length - 6 = 0 := by omega
    obtain ⟨a, haarr, ham⟩ := monthly_label_mem_arr ts t ht
    rw [hout, hdrop0, List.drop_zero]
    exact List.mem_map.mpr ⟨a, hperm.mem_iff.mpr haarr, ham⟩

/-- An input whose month keys are not fixed-width: year 999 produces the
key "999-12", whose display label sorts after the year-1000 label in the
code-point order used by the sort. -/
def overflowTxs : List Transaction :=
  [⟨"t1", TxType.income, 1, "a", none, ⟨999, 12, 1⟩⟩,
   ⟨"t2", TxType.income, 1, "a", none, ⟨1000, 1, 1⟩⟩]

lemma monthly_overflow_eval :
    computeMonthlyTotals overflowTxs =
      [MonthlyData.mk "1000年01月" 1 0, MonthlyData.mk "999年12月" 1 0] := by
  have hk1 : monthKeyChars ⟨999, 12, 1⟩ = ['9', '9', '9', '-', '1', '2'] := by
    simp [monthKeyChars, toDec, pad2c, digitChar]
  have hk2 : monthKeyChars ⟨1000, 1, 1⟩ =
      ['1', '0', '0', '0', '-', '0', '1'] := by
    simp [monthKeyChars, toDec, pad2c, digitChar]
  have hmap : buildMonthlyMap overflowTxs =
      [(['9', '9', '9', '-', '1', '2'], MonthlyAcc.mk 1 0),
       (['1', '0', '0', '0', '-', '0', '1'], MonthlyAcc.mk 1 0)] := by
    simp [buildMonthlyMap, overflowTxs, hk1, hk2, upsert, jsOrZero]
  have hl1 : monthLabelChars ['9', '9', '9', '-', '1', '2'] =
      ['9', '9', '9', '年', '1', '2', '月'] := by
    simp [monthLabelChars, replaceFirstDash, endsTwoDigits]
  have hl2 : monthLabelChars ['1', '0', '0', '0', '-', '0', '1'] =
      ['1', '0', '0', '0', '年', '0', '1', '月'] := by
    simp [monthLabelChars, replaceFirstDash, endsTwoDigits]
  have hdata : ∀ l : List Char, (String.mk l).data = l := fun l => rfl
  have hcmp : lexLe ['9', '9', '9', '年', '1', '2', '月']
      ['1', '0', '0', '0', '年', '0', '1', '月'] = false := by decide
  rw [computeMonthlyTotals, hmap]
  simp [hl1, hl2, hdata, hcmp, List.mergeSort, List.merge]

/-- C5 counterexample: with a 3-digit year in the input the rows of
`computeMonthlyTotals` are not chronologically ascending — the sort
compares the reformatted label strings, and "999年12月" sorts after
"1000年01月" although it is the earlier month. -/
theorem C5_monthly_counterexample :
    ¬ (computeMonthlyTotals overflowTxs).Pairwise
      (fun a b => monthOrder a.month b.month) := by
  have hp1 : parseLabel "1000年01月" = (1000, 1) := by decide
  have hp2 : parseLabel "999年12月" = (999, 12) := by decide
  rw [monthly_overflow_eval]
  intro h
  have h2 := (List.pairwise_cons.mp h).1 (MonthlyData.mk "999年12月" 1 0)
    (by simp)
  simp [monthOrder, chronLe, hp1, hp2] at h2

/-- Witness for C5 on the spec's example input. -/
theorem C5_monthly_window_witness :
    (computeMonthlyTotals exampleTxs).length ≤ 6 ∧
    (computeMonthlyTotals exampleTxs).Pairwise
      (fun a b => monthOrder a.month b.month) :=
  ⟨(C5_monthly_window exampleTxs (by decide)).1,
   (C5_monthly_window exampleTxs (by decide)).2.1⟩
